import Mathlib

/-!
Shallow embedding of `homeassistant/custom_components/openctrol/ws.py`
(class `OpenctrolWsClient`): Python string helpers, the wire-message
model, the key-combo and pointer-event encoders, the binary frame
decoder, the connect-retry loop, the close logic and the session
fallback logic, together with theorems settling the specification
claims about them.

Conventions of the embedding:
* Python strings are Lean `String`s; `str.upper()` / `str.lower()` are
  modelled for the ASCII range (all key names and button names used by
  the protocol are ASCII).
* Python `bytes` are `List Nat` (one entry per byte).
* Python floats are modelled as rationals `ℚ`; `round` is CPython's
  round-half-to-even.
* A JSON message is modelled by the inductive `Msg`; an optional
  boolean flag that Python leaves out of the dict is modelled as the
  flag being `false`.
-/

/-- ASCII embedding of Python `str.upper()` on a single character:
lowercase `a`-`z` (code points 97-122) map 32 downwards, everything
else is unchanged. -/
def pyUpperChar (c : Char) : Char :=
  if h : 97 ≤ c.toNat ∧ c.toNat ≤ 122 then
    Char.ofNatAux (c.toNat - 32) (Or.inl (by omega))
  else c

/-- ASCII embedding of Python `str.upper()`. -/
def pyUpper (s : String) : String := ⟨s.data.map pyUpperChar⟩

/-- ASCII embedding of Python `str.lower()` on a single character. -/
def pyLowerChar (c : Char) : Char :=
  if h : 65 ≤ c.toNat ∧ c.toNat ≤ 90 then
    Char.ofNatAux (c.toNat + 32) (Or.inl (by omega))
  else c

/-- ASCII embedding of Python `str.lower()`. -/
def pyLower (s : String) : String := ⟨s.data.map pyLowerChar⟩

/-- CPython `round` (round half to even) on a rational, returning an
integer; used for `int(round(dx))` in the session-based dialect. -/
def pyRound (q : ℚ) : ℤ :=
  let f : ℤ := ⌊q⌋
  let r : ℚ := q - f
  if r < 1/2 then f
  else if 1/2 < r then f + 1
  else if f % 2 = 0 then f else f + 1

/-- Windows virtual-key code constants used in `ws.py`. -/
def VK_CONTROL : Nat := 0x11
def VK_MENU : Nat := 0x12
def VK_SHIFT : Nat := 0x10
def VK_LWIN : Nat := 0x5B

/-- One outbound JSON wire message, as built by
`async_send_pointer_event` and `async_send_key_combo`.  The `pointer`
constructor carries the legacy-dialect `"pointer"` messages (the
`event` field plus whichever of `dx`/`dy`/`button` the event kind
sets); `keyboard` is the legacy key-combo message; the others are the
session-based dialect messages.  For `key`, a `false` flag models the
flag being absent from the Python dict. -/
inductive Msg where
  | pointer_move (dx dy : ℤ)
  | pointer_button (button : String) (action : String)
  | pointer_wheel (delta_x delta_y : ℤ)
  | key (key_code : Nat) (action : String) (ctrl alt shift win : Bool)
  | pointer (event : String) (dx dy : Option ℚ) (button : Option String)
  | keyboard (keys : List String)
  deriving DecidableEq

/-- Error raised by a send operation: `valueError` embeds Python
`ValueError`, `connectionFailed` embeds the `RuntimeError` raised
after the connect-retry budget is exhausted (the spec's
`ConnectionFailed`). -/
inductive SendError where
  | valueError (msg : String)
  | connectionFailed
  deriving DecidableEq

deriving instance DecidableEq for Except

/-- The literal name-to-code table of `_map_key_name_to_code`. -/
def keyTable : List (String × Nat) :=
  [("TAB", 0x09), ("ENTER", 0x0D), ("ESC", 0x1B), ("ESCAPE", 0x1B),
   ("SPACE", 0x20), ("BACKSPACE", 0x08), ("DEL", 0x2E), ("DELETE", 0x2E),
   ("INSERT", 0x2D), ("HOME", 0x24), ("END", 0x23), ("PAGEUP", 0x21),
   ("PAGEDOWN", 0x22), ("UP", 0x26), ("DOWN", 0x28), ("LEFT", 0x25),
   ("RIGHT", 0x27), ("F1", 0x70), ("F2", 0x71), ("F3", 0x72),
   ("F4", 0x73), ("F5", 0x74), ("F6", 0x75), ("F7", 0x76),
   ("F8", 0x77), ("F9", 0x78), ("F10", 0x79), ("F11", 0x7A),
   ("F12", 0x7B), ("CTRL", 0x11), ("CONTROL", 0x11), ("ALT", 0x12),
   ("SHIFT", 0x10), ("WIN", 0x5B), ("WINDOWS", 0x5B)]

/-- Embedding of `_map_key_name_to_code`: uppercase the name, map a
single letter or digit to its code point, otherwise look the name up
in the fixed table.  (In the source the single-character check runs
after the table is built but before the lookup; the order of the two
single-character checks relative to the lookup is preserved.) -/
def mapKeyNameToCode (key_name : String) : Option Nat :=
  let key_upper := pyUpper key_name
  match key_upper.data with
  | [c] =>
      if 65 ≤ c.toNat ∧ c.toNat ≤ 90 then some c.toNat
      else if 48 ≤ c.toNat ∧ c.toNat ≤ 57 then some c.toNat
      else keyTable.lookup key_upper
  | _ => keyTable.lookup key_upper

/-- The four modifier booleans accumulated by `async_send_key_combo`. -/
structure ModifierFlags where
  ctrl : Bool
  alt : Bool
  shift : Bool
  win : Bool
  deriving DecidableEq

/-- Result of the classification loop of `async_send_key_combo`:
the modifier flags, the modifier key codes in input order, and the
main key codes in input order (unknown names dropped). -/
structure KeyClassification where
  flags : ModifierFlags
  modifier_key_codes : List Nat
  main_keys : List Nat
  deriving DecidableEq

/-- Embedding of the `for key in keys` classification loop of
`async_send_key_combo` (lines 651-670). -/
def classifyKeys : List String → KeyClassification
  | [] => ⟨⟨false, false, false, false⟩, [], []⟩
  | key :: rest =>
    let r := classifyKeys rest
    let key_upper := pyUpper key
    if key_upper = "CTRL" ∨ key_upper = "CONTROL" then
      ⟨{ r.flags with ctrl := true }, VK_CONTROL :: r.modifier_key_codes, r.main_keys⟩
    else if key_upper = "ALT" then
      ⟨{ r.flags with alt := true }, VK_MENU :: r.modifier_key_codes, r.main_keys⟩
    else if key_upper = "SHIFT" then
      ⟨{ r.flags with shift := true }, VK_SHIFT :: r.modifier_key_codes, r.main_keys⟩
    else if key_upper = "WIN" ∨ key_upper = "WINDOWS" then
      ⟨{ r.flags with win := true }, VK_LWIN :: r.modifier_key_codes, r.main_keys⟩
    else
      match mapKeyNameToCode key with
      | some c => ⟨r.flags, r.modifier_key_codes, c :: r.main_keys⟩
      | none => r

/-- One session-dialect `key` message for `key_code`, with each
modifier flag set when that modifier is part of the combo and the key
being pressed or released is not that modifier itself (lines 718-735
and 740-760 of `ws.py`). -/
def keyMsg (flags : ModifierFlags) (action : String) (key_code : Nat) : Msg :=
  .key key_code action
    (flags.ctrl && decide (key_code ≠ VK_CONTROL))
    (flags.alt && decide (key_code ≠ VK_MENU))
    (flags.shift && decide (key_code ≠ VK_SHIFT))
    (flags.win && decide (key_code ≠ VK_LWIN))

/-- Session-based dialect encoding of a key combo: key-down messages
for modifiers then main keys, followed by key-up messages for main
keys reversed then modifiers reversed. -/
def sessionKeyComboMsgs (keys : List String) : List Msg :=
  let c := classifyKeys keys
  let all_keys_down := c.modifier_key_codes ++ c.main_keys
  let all_keys_up := c.main_keys.reverse ++ c.modifier_key_codes.reverse
  all_keys_down.map (keyMsg c.flags "down") ++ all_keys_up.map (keyMsg c.flags "up")

/-- Embedding of the fallback loop `for orig_key in keys` of the
legacy key-combo branch (lines 700-703): the first input name mapping
to `code`, uppercased. -/
def findKeyNameForCode : List String → Nat → Option String
  | [], _ => none
  | orig :: rest, code =>
      if mapKeyNameToCode orig = some code then some (pyUpper orig)
      else findKeyNameForCode rest code

/-- Embedding of the code-to-name conversion of the legacy key-combo
branch (lines 682-703): modifier codes to canonical names, letter and
digit codes to their character, anything else to the first input name
with that code (nothing appended when no input name matches). -/
def codeToName (keys : List String) (key_code : Nat) : Option String :=
  if key_code = VK_CONTROL then some "CTRL"
  else if key_code = VK_MENU then some "ALT"
  else if key_code = VK_SHIFT then some "SHIFT"
  else if key_code = VK_LWIN then some "WIN"
  else if h : 0x41 ≤ key_code ∧ key_code ≤ 0x5A then
    some ⟨[Char.ofNatAux key_code (Or.inl (by omega))]⟩
  else if h : 0x30 ≤ key_code ∧ key_code ≤ 0x39 then
    some ⟨[Char.ofNatAux key_code (Or.inl (by omega))]⟩
  else findKeyNameForCode keys key_code

/-- Legacy-dialect key names: every classified key code (modifiers
first, then main keys) converted back to a name. -/
def legacyKeyNames (keys : List String) : List String :=
  let c := classifyKeys keys
  (c.modifier_key_codes ++ c.main_keys).filterMap (codeToName keys)

/-- Embedding of `async_send_key_combo` after the connection is
established: the list of wire messages it sends (or the error it
raises).  An empty `keys` list raises `ValueError`; a combo that
resolves to no key codes sends nothing and returns. -/
def buildKeyComboMsgs (is_deprecated_endpoint : Bool) (keys : List String) :
    Except SendError (List Msg) :=
  if keys = [] then .error (.valueError "keys list cannot be empty")
  else
    let c := classifyKeys keys
    if c.modifier_key_codes = [] ∧ c.main_keys = [] then .ok []
    else if is_deprecated_endpoint then
      .ok [.keyboard (legacyKeyNames keys)]
    else
      .ok (sessionKeyComboMsgs keys)

/-- Action string for a session-dialect `"button"` pointer event.  In
the source the action is `str(dx).lower()` when that is `"down"` or
`"up"`, else `"down"` with a warning; callers in the integration
smuggle the action string through the `dx` parameter despite its
declared numeric type.  This embedding fixes `dx` as numeric (`ℚ`),
so that string channel is outside the model and this branch always
yields the `"down"` default; no claim in this development concerns
the `"button"` event. -/
def pointerButtonAction (dx : Option ℚ) : String :=
  match dx with
  | some _ => "down"
  | none => "down"

/-- Embedding of `async_send_pointer_event` after the connection is
established: the list of wire messages it sends (or the error it
raises), by endpoint dialect and event type. -/
def buildPointerMsgs (is_deprecated_endpoint : Bool) (event_type : String)
    (dx dy : Option ℚ) (button : Option String) : Except SendError (List Msg) :=
  if is_deprecated_endpoint then
    if event_type = "move" then
      match dx, dy with
      | some dxv, some dyv => .ok [.pointer "move" (some dxv) (some dyv) none]
      | _, _ => .error (.valueError "dx and dy are required for move events")
    else if event_type = "click" then
      match button with
      | some b => .ok [.pointer "click" none none (some (pyLower b))]
      | none => .error (.valueError "button is required for click events")
    else if event_type = "button" then
      match button with
      | some b => .ok [.pointer "click" none none (some (pyLower b))]
      | none => .error (.valueError "button is required for button events")
    else if event_type = "scroll" then
      match dx, dy with
      | some dxv, some dyv => .ok [.pointer "scroll" (some dxv) (some dyv) none]
      | _, _ => .error (.valueError "dx and dy are required for scroll events")
    else .error (.valueError "Unknown pointer event type")
  else
    if event_type = "move" then
      match dx, dy with
      | some dxv, some dyv => .ok [.pointer_move (pyRound dxv) (pyRound dyv)]
      | _, _ => .error (.valueError "dx and dy are required for move events")
    else if event_type = "click" then
      match button with
      | some b =>
          .ok [.pointer_button (pyLower b) "down", .pointer_button (pyLower b) "up"]
      | none => .error (.valueError "button is required for click events")
    else if event_type = "button" then
      match button with
      | some b => .ok [.pointer_button (pyLower b) (pointerButtonAction dx)]
      | none => .error (.valueError "button is required for button events")
    else if event_type = "scroll" then
      match dx, dy with
      | some dxv, some dyv => .ok [.pointer_wheel (pyRound dxv) (pyRound dyv)]
      | _, _ => .error (.valueError "dx and dy are required for scroll events")
    else .error (.valueError "Unknown pointer event type")

/-- The 4-byte magic marker `b"OFRA"` of a binary video frame. -/
def OFRA_MAGIC : List Nat := [0x4F, 0x46, 0x52, 0x41]

/-- Outcome of `_handle_binary_message` on one binary buffer. -/
inductive FrameDecodeResult where
  | tooShort
  | badMagic (magic : List Nat)
  | frame (width height format_type : Nat) (jpeg_data : List Nat)
  deriving DecidableEq

/-- Embedding of `struct.unpack("<I", bs)[0]` on a 4-byte buffer:
the little-endian unsigned 32-bit value. -/
def unpackLE32 (bs : List Nat) : Nat :=
  match bs with
  | [b0, b1, b2, b3] => b0 + 256 * b1 + 65536 * b2 + 16777216 * b3
  | _ => 0

/-- Embedding of `_handle_binary_message` (lines 291-319): reject
buffers shorter than 16 bytes, check the magic, then unpack the
header fields and split off the payload. -/
def handleBinaryMessage (data : List Nat) : FrameDecodeResult :=
  if data.length < 16 then .tooShort
  else
    let header := data.take 16
    let magic := header.take 4
    if magic ≠ OFRA_MAGIC then .badMagic magic
    else
      .frame (unpackLE32 ((header.drop 4).take 4))
        (unpackLE32 ((header.drop 8).take 4))
        (unpackLE32 ((header.drop 12).take 4))
        (data.drop 16)

/-- Invocations of the registered frame callback caused by one binary
message: `(jpeg_data, width, height)` on a successful decode when a
callback is registered, nothing otherwise.  A callback that raises is
caught inside `_handle_binary_message`, so the call list is the whole
observable effect. -/
def frameCallbackCalls (frame_callback_set : Bool) (data : List Nat) :
    List (List Nat × Nat × Nat) :=
  match handleBinaryMessage data with
  | .frame w h _ payload => if frame_callback_set then [(payload, w, h)] else []
  | _ => []

/-- The retry budget of the send paths (`max_retries` in the source). -/
def maxRetries : Nat := 3

/-- The base backoff delay in seconds (`retry_delay` in the source). -/
def retryDelay : ℚ := 3/10

/-- Trace of the connect-retry loop at the head of
`async_send_pointer_event` and `async_send_key_combo`: whether a
connection was obtained, how many connect attempts ran, and the
sleeps (in seconds) performed between failed attempts. -/
structure ConnectTrace where
  success : Bool
  attempts : Nat
  sleeps : List ℚ
  deriving DecidableEq

/-- One unrolling of the `for attempt in range(max_retries)` loop for
a client that starts disconnected: `connect_succeeds i` is the
outcome of the `async_connect` call on attempt index `i` (0-based);
after a failed attempt that is not the last, the loop sleeps
`retry_delay * (attempt + 1)` seconds and retries. -/
def connectRetryLoop (connect_succeeds : Nat → Bool) : Nat → Nat → ConnectTrace
  | attempt, 0 => ⟨false, attempt, []⟩
  | attempt, remaining + 1 =>
    if connect_succeeds attempt then ⟨true, attempt + 1, []⟩
    else if remaining = 0 then ⟨false, attempt + 1, []⟩
    else
      let t := connectRetryLoop connect_succeeds (attempt + 1) remaining
      ⟨t.success, t.attempts, retryDelay * ((attempt : ℚ) + 1) :: t.sleeps⟩

/-- The connection-ensuring preamble shared by both send operations:
an already-connected client breaks out of the loop at once; otherwise
up to `maxRetries` connect attempts run. -/
def ensureConnected (connected : Bool) (connect_succeeds : Nat → Bool) : ConnectTrace :=
  if connected then ⟨true, 0, []⟩ else connectRetryLoop connect_succeeds 0 maxRetries

/-- Embedding of `async_send_pointer_event` (lines 343-531): ensure a
connection (with retries), then build and send the dialect-specific
messages; exhausting the retry budget raises `connectionFailed`
instead of sending. -/
def asyncSendPointerEvent (connected : Bool) (connect_succeeds : Nat → Bool)
    (is_deprecated_endpoint : Bool) (event_type : String) (dx dy : Option ℚ)
    (button : Option String) : ConnectTrace × Except SendError (List Msg) :=
  let t := ensureConnected connected connect_succeeds
  if t.success then (t, buildPointerMsgs is_deprecated_endpoint event_type dx dy button)
  else (t, .error .connectionFailed)

/-- Embedding of `async_send_key_combo` (lines 584-767): ensure a
connection (with retries), then build and send the dialect-specific
messages; exhausting the retry budget raises `connectionFailed`
instead of sending. -/
def asyncSendKeyCombo (connected : Bool) (connect_succeeds : Nat → Bool)
    (is_deprecated_endpoint : Bool) (keys : List String) :
    ConnectTrace × Except SendError (List Msg) :=
  let t := ensureConnected connected connect_succeeds
  if t.success then (t, buildKeyComboMsgs is_deprecated_endpoint keys)
  else (t, .error .connectionFailed)

/-- State of the background receive task as far as `async_close`
observes it: whether a task object exists and whether it is done. -/
structure ReceiveTaskState where
  done : Bool
  deriving DecidableEq

/-- The WebSocket object as far as `async_close` observes it. -/
structure WsState where
  closed : Bool
  deriving DecidableEq

/-- The connection state fields of `OpenctrolWsClient` that
`async_close` manipulates. -/
structure ClientState where
  connected : Bool
  ws : Option WsState
  session_id : Option String
  websocket_url : Option String
  receive_task : Option ReceiveTaskState
  deriving DecidableEq

/-- Result of one `async_close` call: whether an
`asyncio.CancelledError` propagated out of the call, and the client
state afterwards. -/
structure CloseResult where
  raised : Bool
  state : ClientState
  deriving DecidableEq

/-- Embedding of `async_close` (lines 321-341).  With a live (not
done) receive task, `cancel()` is called and the task is awaited:
the receive loop's own `finally` clears the task attribute, the
await then re-raises `asyncio.CancelledError`, and the surrounding
`except Exception: pass` does not catch it (`CancelledError` derives
from `BaseException` since Python 3.8, and this file needs
Python >= 3.10 for its `float | None` parameter annotations) — so
the call raises, skipping the socket close and every state reset.
Otherwise the socket is closed when open (errors there swallowed)
and the connected flag, socket and cached session reference are
reset; a done task's reference is left in place because the cancel
block is skipped. -/
def asyncClose (s : ClientState) : CloseResult :=
  match s.receive_task with
  | some t =>
    if t.done then
      ⟨false, { connected := false, ws := none, session_id := none,
                websocket_url := none, receive_task := some t }⟩
    else
      ⟨true, { s with receive_task := none }⟩
  | none =>
    ⟨false, { connected := false, ws := none, session_id := none,
              websocket_url := none, receive_task := none }⟩

/-- One session record as stored in the `hass.data["openctrol"]`
cache: the optional `session_id` and `websocket_url` fields of the
stored dict. -/
structure SessionRec where
  session_id : Option String
  websocket_url : Option String
  deriving DecidableEq

/-- One config-entry slot of the cache.  The outer `Option` of each
field models whether the dict key (`"latest_session"` /
`"sessions"`) is present at all; the inner `Option` of `latest`
models a present key holding a non-dict or falsy value. -/
structure EntryData where
  latest : Option (Option SessionRec)
  sessions : Option (List (String × SessionRec))
  deriving DecidableEq

/-- Truthiness of a Python string-or-None websocket URL: present and
non-empty. -/
def truthyUrl : Option String → Option String
  | some s => if s = "" then none else some s
  | none => none

/-- URL of a latest-session value when it is a dict with a truthy
`websocket_url`. -/
def latestUrl : Option (Option SessionRec) → Option String
  | some (some rec) => truthyUrl rec.websocket_url
  | _ => none

/-- Embedding of the inner `for sid, sess in sessions.items()` search
of the limit-error handler: first session value with a truthy URL. -/
def scanSessions : List (String × SessionRec) → Option String
  | [] => none
  | (_, rec) :: rest =>
    match truthyUrl rec.websocket_url with
    | some u => some u
    | none => scanSessions rest

/-- Embedding of the `for entry_id, data in ...` search over the
whole cache (lines 190-216): per entry, a truthy `latest_session`
URL wins, otherwise the first truthy URL in its `sessions` dict;
entries are visited in order. -/
def scanEntries : List (String × EntryData) → Option String
  | [] => none
  | (_, d) :: rest =>
    match latestUrl d.latest with
    | some u => some u
    | none =>
      match d.sessions.bind (fun sl => scanSessions sl) with
      | some u => some u
      | none => scanEntries rest

/-- Embedding of the own-entry part of the limit-error handler
(lines 169-188), which runs only when the error message indicates the
session limit was reached: check `latest_session` first; only when
that key is absent, take the first value of the `sessions` dict. -/
def ownEntryUrl (entry_data : Option EntryData) : Option String :=
  match entry_data with
  | none => none
  | some ed =>
    match ed.latest with
    | some latest => latestUrl (some latest)
    | none =>
      match ed.sessions with
      | some ((_, rec) :: _) => truthyUrl rec.websocket_url
      | _ => none

/-- Embedding of the whole `except` handler of session creation
(lines 166-226) as it determines the websocket URL: when the error is
a limit error, first try the entry's own cached session; then (for
any error) search every cache entry; `none` means the connect falls
back to the deprecated fixed endpoint. -/
def resolveAfterSessionError (is_limit_error : Bool) (entry_data : Option EntryData)
    (cache : List (String × EntryData)) : Option String :=
  let url0 := if is_limit_error then ownEntryUrl entry_data else none
  match url0 with
  | some u => some u
  | none => scanEntries cache

/-- Every truthy websocket URL stored anywhere in the cache (in the
`latest_session` slots or the `sessions` dicts). -/
def cacheUrls (cache : List (String × EntryData)) : List String :=
  cache.flatMap fun p =>
    (latestUrl p.2.latest).toList ++
      (p.2.sessions.getD []).filterMap fun q => truthyUrl q.2.websocket_url

/-- The deprecated fixed endpoint URL built by the `_ws_url`
property. -/
def legacyWsUrl (use_ssl : Bool) (host : String) (port : Nat) : String :=
  (if use_ssl then "wss" else "ws") ++ "://" ++ host ++ ":" ++ toString port
    ++ "/api/v1/rd/session"

/-- URL actually used by `async_connect` after session resolution:
the resolved session URL, or the deprecated fixed endpoint when no
session could be obtained. -/
def connectUrl (resolved : Option String) (use_ssl : Bool) (host : String)
    (port : Nat) : String :=
  match resolved with
  | some u => u
  | none => legacyWsUrl use_ssl host port

/-- Re-encoding of a wire key name to its key code, the way the
classification loop of `async_send_key_combo` would classify that
single name: modifier aliases to their virtual-key codes, anything
else through `mapKeyNameToCode`.  Used to state that the legacy
`keyboard` message's names denote exactly the classified key codes. -/
def nameKeyCode (name : String) : Option Nat :=
  let u := pyUpper name
  if u = "CTRL" ∨ u = "CONTROL" then some VK_CONTROL
  else if u = "ALT" then some VK_MENU
  else if u = "SHIFT" then some VK_SHIFT
  else if u = "WIN" ∨ u = "WINDOWS" then some VK_LWIN
  else mapKeyNameToCode name

/-- A previously created session with a usable (truthy) websocket URL
exists somewhere in the process-wide cache. -/
def cacheHasSession (cache : List (String × EntryData)) : Prop :=
  ∃ p ∈ cache,
    (∃ u, latestUrl p.2.latest = some u) ∨
    (∃ sl, p.2.sessions = some sl ∧ ∃ q ∈ sl, ∃ u, truthyUrl q.2.websocket_url = some u)

/-- The six key-name spellings that the classification loop treats as
modifiers (after uppercasing). -/
def isModAliasStr (u : String) : Prop :=
  u = "CTRL" ∨ u = "CONTROL" ∨ u = "ALT" ∨ u = "SHIFT" ∨ u = "WIN" ∨ u = "WINDOWS"

instance (u : String) : Decidable (isModAliasStr u) := by
  unfold isModAliasStr
  infer_instance

/-! ### Helper lemmas -/

theorem toNat_ofNatAux (n : Nat) (h : n.isValidChar) :
    (Char.ofNatAux n h).toNat = n := by
  simp [Char.ofNatAux, Char.toNat, UInt32.toNat, BitVec.toNat_ofNatLt]

theorem toNat_pyUpperChar (c : Char) :
    (pyUpperChar c).toNat =
      if 97 ≤ c.toNat ∧ c.toNat ≤ 122 then c.toNat - 32 else c.toNat := by
  unfold pyUpperChar
  split <;> rename_i h
  · simp [toNat_ofNatAux, if_pos h]
  · simp [if_neg h]

theorem pyUpperChar_idem (c : Char) : pyUpperChar (pyUpperChar c) = pyUpperChar c := by
  by_cases h : 97 ≤ (pyUpperChar c).toNat ∧ (pyUpperChar c).toNat ≤ 122
  · exfalso
    have := toNat_pyUpperChar c
    split at this <;> omega
  · unfold pyUpperChar
    rw [dif_neg]
    exact fun hh => h (by simpa [pyUpperChar] using hh)

theorem pyUpper_idem (s : String) : pyUpper (pyUpper s) = pyUpper s := by
  simp only [pyUpper, List.map_map]
  congr 1
  exact List.map_congr_left fun c _ => pyUpperChar_idem c

theorem mapKeyNameToCode_pyUpper (k : String) :
    mapKeyNameToCode (pyUpper k) = mapKeyNameToCode k := by
  unfold mapKeyNameToCode
  rw [pyUpper_idem]

/-! ### C1: session-based encoding of the combo CTRL+SHIFT+A -/

/-- C1: in the session-based dialect, sending `["CTRL","SHIFT","A"]`
emits exactly the six messages listed: three key-down messages in the
order CTRL, SHIFT, A, then three key-up messages in the order A,
SHIFT, CTRL; both messages for A carry `ctrl:true` and `shift:true`;
both messages for CTRL carry `shift:true` and never `ctrl:true` (a
modifier key's own flag is omitted from its own messages, modelled as
the flag being `false`). -/
theorem sessionCombo_ctrl_shift_a :
    sessionKeyComboMsgs ["CTRL", "SHIFT", "A"] =
      [Msg.key VK_CONTROL "down" false false true false,
       Msg.key VK_SHIFT "down" true false false false,
       Msg.key 0x41 "down" true false true false,
       Msg.key 0x41 "up" true false true false,
       Msg.key VK_SHIFT "up" true false false false,
       Msg.key VK_CONTROL "up" false false true false] ∧
    (sessionKeyComboMsgs ["CTRL", "SHIFT", "A"]).length = 6 := by
  decide

/-! ### C4: session-based click -/

/-- C4: in the session-based dialect, a click with button `"left"`
emits exactly two `pointer_button` messages, the `"down"` message
strictly before the `"up"` message, both carrying button `"left"`;
the button name is lowercased, so `"LEFT"` produces the same two
messages. -/
theorem sessionClick_left :
    buildPointerMsgs false "click" none none (some "left") =
      .ok [Msg.pointer_button "left" "down", Msg.pointer_button "left" "up"] ∧
    buildPointerMsgs false "click" none none (some "LEFT") =
      .ok [Msg.pointer_button "left" "down", Msg.pointer_button "left" "up"] := by
  decide

/-! ### C5: move rounding by dialect -/

/-- C5: a move event with `dx = 10.6`, `dy = -3.2` encodes in the
session-based dialect to the integer fields `dx = 11`, `dy = -3`
(Python `int(round(..))`), while the legacy dialect sends the same
values unchanged as floats. -/
theorem moveEncoding_by_dialect :
    buildPointerMsgs false "move" (some 10.6) (some (-3.2)) none =
      .ok [Msg.pointer_move 11 (-3)] ∧
    buildPointerMsgs true "move" (some 10.6) (some (-3.2)) none =
      .ok [Msg.pointer "move" (some 10.6) (some (-3.2)) none] := by
  have pr1 : pyRound (10.6 : ℚ) = 11 := by norm_num [pyRound]
  have pr2 : pyRound (-3.2 : ℚ) = -3 := by norm_num [pyRound]
  constructor <;> simp [buildPointerMsgs, pr1, pr2]

/-! ### C2: successful frame decode -/

/-- C2: for every byte buffer of length at least 16 whose first 4
bytes are `"OFRA"`, the decoder extracts width, height and format as
the little-endian unsigned 32-bit integers at byte offsets 4-7, 8-11
and 12-15, the payload is all bytes from offset 16 onward unmodified,
and the registered frame callback is invoked once with
`(payload, width, height)`. -/
theorem frameDecode_valid (data : List Nat) (hlen : 16 ≤ data.length)
    (hmagic : data.take 4 = OFRA_MAGIC) :
    handleBinaryMessage data =
      .frame
        (data.getD 4 0 + 256 * data.getD 5 0 + 65536 * data.getD 6 0 + 16777216 * data.getD 7 0)
        (data.getD 8 0 + 256 * data.getD 9 0 + 65536 * data.getD 10 0 + 16777216 * data.getD 11 0)
        (data.getD 12 0 + 256 * data.getD 13 0 + 65536 * data.getD 14 0 + 16777216 * data.getD 15 0)
        (data.drop 16) ∧
    frameCallbackCalls true data =
      [(data.drop 16,
        data.getD 4 0 + 256 * data.getD 5 0 + 65536 * data.getD 6 0 + 16777216 * data.getD 7 0,
        data.getD 8 0 + 256 * data.getD 9 0 + 65536 * data.getD 10 0 + 16777216 * data.getD 11 0)] := by
  rcases data with _ | ⟨b0, data⟩; · simp at hlen
  rcases data with _ | ⟨b1, data⟩; · simp at hlen
  rcases data with _ | ⟨b2, data⟩; · simp at hlen
  rcases data with _ | ⟨b3, data⟩; · simp at hlen
  rcases data with _ | ⟨b4, data⟩; · simp at hlen
  rcases data with _ | ⟨b5, data⟩; · simp at hlen
  rcases data with _ | ⟨b6, data⟩; · simp at hlen
  rcases data with _ | ⟨b7, data⟩; · simp at hlen
  rcases data with _ | ⟨b8, data⟩; · simp at hlen
  rcases data with _ | ⟨b9, data⟩; · simp at hlen
  rcases data with _ | ⟨b10, data⟩; · simp at hlen
  rcases data with _ | ⟨b11, data⟩; · simp at hlen
  rcases data with _ | ⟨b12, data⟩; · simp at hlen
  rcases data with _ | ⟨b13, data⟩; · simp at hlen
  rcases data with _ | ⟨b14, data⟩; · simp at hlen
  rcases data with _ | ⟨b15, data⟩; · simp at hlen
  simp [OFRA_MAGIC] at hmagic
  obtain ⟨h0, h1, h2, h3⟩ := hmagic
  subst h0 h1 h2 h3
  simp [handleBinaryMessage, frameCallbackCalls, unpackLE32, OFRA_MAGIC]
  rw [if_neg (by omega)]

/-- Witness for C2 on a concrete 18-byte frame with width 1, height
2, format 3 and a 2-byte payload. -/
theorem frameDecode_valid_witness :
    (16 ≤ ([79, 70, 82, 65, 1, 0, 0, 0, 2, 0, 0, 0, 3, 0, 0, 0, 9, 9] : List Nat).length ∧
      ([79, 70, 82, 65, 1, 0, 0, 0, 2, 0, 0, 0, 3, 0, 0, 0, 9, 9] : List Nat).take 4 = OFRA_MAGIC) ∧
    handleBinaryMessage [79, 70, 82, 65, 1, 0, 0, 0, 2, 0, 0, 0, 3, 0, 0, 0, 9, 9] =
      .frame 1 2 3 [9, 9] ∧
    frameCallbackCalls true [79, 70, 82, 65, 1, 0, 0, 0, 2, 0, 0, 0, 3, 0, 0, 0, 9, 9] =
      [([9, 9], 1, 2)] := by
  refine ⟨by decide, ?_, ?_⟩
  · have h := (frameDecode_valid
      [79, 70, 82, 65, 1, 0, 0, 0, 2, 0, 0, 0, 3, 0, 0, 0, 9, 9] (by decide) (by decide)).1
    rw [h]; decide
  · have h := (frameDecode_valid
      [79, 70, 82, 65, 1, 0, 0, 0, 2, 0, 0, 0, 3, 0, 0, 0, 9, 9] (by decide) (by decide)).2
    rw [h]; decide

/-! ### C6: rejected frames fire no callback -/

/-- C6: for every buffer shorter than 16 bytes, and for every buffer
of length at least 16 whose first 4 bytes differ from `"OFRA"`, the
decoder invokes no frame callback: decoding yields `tooShort` or
`badMagic` and the message is dropped (the handler is total, so
nothing is raised into the receive loop). -/
theorem frameDecode_invalid (frame_callback_set : Bool) (data : List Nat)
    (h : data.length < 16 ∨ data.take 4 ≠ OFRA_MAGIC) :
    frameCallbackCalls frame_callback_set data = [] ∧
      (handleBinaryMessage data = .tooShort ∨
        handleBinaryMessage data = .badMagic (data.take 4)) := by
  by_cases hl : data.length < 16
  · constructor
    · simp [frameCallbackCalls, handleBinaryMessage, hl]
    · left; simp [handleBinaryMessage, hl]
  · have hm : data.take 4 ≠ OFRA_MAGIC := by tauto
    have ht : (data.take 16).take 4 = data.take 4 := by
      rw [List.take_take]
      norm_num
    constructor
    · simp [frameCallbackCalls, handleBinaryMessage, hl, ht, hm]
    · right; simp [handleBinaryMessage, hl, ht, hm]

/-- Witness for C6 on a concrete 3-byte buffer. -/
theorem frameDecode_invalid_witness :
    (([1, 2, 3] : List Nat).length < 16 ∨ ([1, 2, 3] : List Nat).take 4 ≠ OFRA_MAGIC) ∧
    frameCallbackCalls true [1, 2, 3] = [] ∧
      (handleBinaryMessage [1, 2, 3] = .tooShort ∨
        handleBinaryMessage [1, 2, 3] = .badMagic (([1, 2, 3] : List Nat).take 4)) :=
  ⟨Or.inl (by decide), frameDecode_invalid true [1, 2, 3] (Or.inl (by decide))⟩

/-! ### C7: connect-retry budget on the send paths -/

theorem connectRetryLoop_attempts_le (connect_succeeds : Nat → Bool) :
    ∀ r a, (connectRetryLoop connect_succeeds a r).attempts ≤ a + r := by
  intro r
  induction r with
  | zero => intro a; simp [connectRetryLoop]
  | succ n ih =>
    intro a
    simp only [connectRetryLoop]
    split
    · simp
    · split
      · simp
      · have := ih (a + 1)
        simp
        omega

theorem ensureConnected_allFail (connect_succeeds : Nat → Bool)
    (hfail : ∀ i, i < maxRetries → connect_succeeds i = false) :
    ensureConnected false connect_succeeds =
      ⟨false, 3, [retryDelay * 1, retryDelay * 2]⟩ := by
  have h0 := hfail 0 (by decide)
  have h1 := hfail 1 (by decide)
  have h2 := hfail 2 (by decide)
  simp [ensureConnected, maxRetries, connectRetryLoop, h0, h1, h2]
  norm_num

/-- C7: an input-sending operation (send-pointer-event or
send-key-combo) invoked while not connected performs at most
`maxRetries = 3` connect attempts; when every attempt fails it sleeps
`retryDelay * 1` then `retryDelay * 2` seconds between the failed
attempts (base delay 0.3 s times the 1-based attempt number) and then
raises `connectionFailed` to the caller instead of sending anything. -/
theorem sendRetry_exhaustion (connect_succeeds : Nat → Bool)
    (hfail : ∀ i, i < maxRetries → connect_succeeds i = false)
    (is_deprecated_endpoint : Bool) (keys : List String) (event_type : String)
    (dx dy : Option ℚ) (button : Option String) :
    asyncSendKeyCombo false connect_succeeds is_deprecated_endpoint keys =
      (⟨false, 3, [retryDelay * 1, retryDelay * 2]⟩, .error .connectionFailed) ∧
    asyncSendPointerEvent false connect_succeeds is_deprecated_endpoint event_type dx dy button =
      (⟨false, 3, [retryDelay * 1, retryDelay * 2]⟩, .error .connectionFailed) ∧
    (∀ c : Nat → Bool, ∀ b : Bool, (ensureConnected b c).attempts ≤ maxRetries) := by
  have he := ensureConnected_allFail connect_succeeds hfail
  refine ⟨?_, ?_, ?_⟩
  · simp [asyncSendKeyCombo, he]
  · simp [asyncSendPointerEvent, he]
  · intro c b
    rcases b with _ | _
    · simpa using connectRetryLoop_attempts_le c maxRetries 0
    · simp [ensureConnected]

/-- Witness for C7: a connect oracle that always fails, applied to a
key-combo send. -/
theorem sendRetry_exhaustion_witness :
    (∀ i, i < maxRetries → (fun _ => false : Nat → Bool) i = false) ∧
    asyncSendKeyCombo false (fun _ => false) false ["A"] =
      (⟨false, 3, [retryDelay * 1, retryDelay * 2]⟩, .error .connectionFailed) :=
  ⟨fun _ _ => rfl,
    (sendRetry_exhaustion (fun _ => false) (fun _ _ => rfl) false ["A"] "move"
      none none none).1⟩

/-! ### C8: close with a live receive task raises and resets nothing -/

/-- C8 (code bug): on the failing input — a connected streaming
client whose background receive task is live, the ordinary state a
`close()` is for — the call raises (`except Exception` does not
catch the `asyncio.CancelledError` re-raised by awaiting the
cancelled task on the Python versions this file requires) and resets
nothing: afterwards the client is still flagged connected and the
socket object, cached session id and cached websocket URL are all
intact, contradicting the claim that `close()` raises no error and
resets all connection state, and contradicting the evident intent of
the source's own `try`/`except`/`pass` around that await.  Only a
second `close()` (the task attribute having been cleared by the
receive loop's `finally`) resets the state without error.  In states
with no live receive task the code does behave as the claim says
(see `close_noLiveTask`). -/
theorem close_cancelledError_bug :
    (asyncClose ⟨true, some ⟨false⟩, some "sid", some "wss-url", some ⟨false⟩⟩).raised = true ∧
    (asyncClose ⟨true, some ⟨false⟩, some "sid", some "wss-url", some ⟨false⟩⟩).state =
      ⟨true, some ⟨false⟩, some "sid", some "wss-url", none⟩ ∧
    (asyncClose (asyncClose
        ⟨true, some ⟨false⟩, some "sid", some "wss-url", some ⟨false⟩⟩).state).raised = false ∧
    (asyncClose (asyncClose
        ⟨true, some ⟨false⟩, some "sid", some "wss-url", some ⟨false⟩⟩).state).state =
      ⟨false, none, none, none, none⟩ := by
  decide

theorem close_noLiveTask (s : ClientState)
    (h : ∀ t, s.receive_task = some t → t.done = true) :
    (asyncClose s).raised = false ∧
    (asyncClose s).state.connected = false ∧
    (asyncClose s).state.ws = none ∧
    (asyncClose s).state.session_id = none ∧
    (asyncClose s).state.websocket_url = none ∧
    asyncClose (asyncClose s).state = asyncClose s := by
  rcases hr : s.receive_task with _ | t
  · simp [asyncClose, hr]
  · have hd := h t hr
    simp [asyncClose, hr, hd]

/-! ### C3: session reuse on a limit error -/

theorem scanSessions_mem {sl : List (String × SessionRec)} {u : String}
    (h : scanSessions sl = some u) :
    ∃ q ∈ sl, truthyUrl q.2.websocket_url = some u := by
  induction sl with
  | nil => simp [scanSessions] at h
  | cons hd tl ih =>
    obtain ⟨sid, rec⟩ := hd
    simp only [scanSessions] at h
    rcases hu : truthyUrl rec.websocket_url with _ | v
    · rw [hu] at h
      obtain ⟨q, hq, he⟩ := ih h
      exact ⟨q, List.mem_cons_of_mem _ hq, he⟩
    · rw [hu] at h
      simp at h
      exact ⟨(sid, rec), List.mem_cons_self _ _, by rw [hu, h]⟩

theorem scanSessions_isSome {sl : List (String × SessionRec)}
    (h : ∃ q ∈ sl, ∃ u, truthyUrl q.2.websocket_url = some u) :
    ∃ u, scanSessions sl = some u := by
  induction sl with
  | nil => simp at h
  | cons hd tl ih =>
    obtain ⟨sid, rec⟩ := hd
    simp only [scanSessions]
    rcases hu : truthyUrl rec.websocket_url with _ | v
    · apply ih
      obtain ⟨q, hq, hv⟩ := h
      rcases List.mem_cons.mp hq with he | hm
      · subst he; simp [hu] at hv
      · exact ⟨q, hm, hv⟩
    · exact ⟨v, rfl⟩

theorem mem_cacheUrls {cache : List (String × EntryData)} {p : String × EntryData} {u : String}
    (hp : p ∈ cache)
    (h : latestUrl p.2.latest = some u ∨
      ∃ q ∈ p.2.sessions.getD [], truthyUrl q.2.websocket_url = some u) :
    u ∈ cacheUrls cache := by
  unfold cacheUrls
  rw [List.mem_flatMap]
  refine ⟨p, hp, ?_⟩
  rw [List.mem_append]
  rcases h with h | ⟨q, hq, he⟩
  · left; simp [h]
  · right
    rw [List.mem_filterMap]
    exact ⟨q, hq, he⟩

theorem scanEntries_mem {cache : List (String × EntryData)} {u : String}
    (h : scanEntries cache = some u) : u ∈ cacheUrls cache := by
  induction cache with
  | nil => simp [scanEntries] at h
  | cons hd tl ih =>
    obtain ⟨eid, d⟩ := hd
    simp only [scanEntries] at h
    rcases hl : latestUrl d.latest with _ | v
    · rw [hl] at h
      rcases hs : d.sessions.bind (fun sl => scanSessions sl) with _ | w
      · rw [hs] at h
        have := ih h
        simp only [cacheUrls] at this ⊢
        rw [List.flatMap_cons, List.mem_append]
        exact Or.inr this
      · rw [hs] at h
        simp at h
        subst h
        rcases hsl : d.sessions with _ | sl
        · rw [hsl] at hs; simp at hs
        · rw [hsl] at hs
          simp at hs
          obtain ⟨q, hq, he⟩ := scanSessions_mem hs
          exact mem_cacheUrls (List.mem_cons_self _ _) (Or.inr ⟨q, by simpa [hsl] using hq, he⟩)
    · rw [hl] at h
      simp at h
      subst h
      exact mem_cacheUrls (List.mem_cons_self _ _) (Or.inl hl)

theorem scanEntries_isSome {cache : List (String × EntryData)}
    (h : cacheHasSession cache) : ∃ u, scanEntries cache = some u := by
  obtain ⟨p, hp, hcase⟩ := h
  induction cache with
  | nil => simp at hp
  | cons hd tl ih =>
    obtain ⟨eid, d⟩ := hd
    simp only [scanEntries]
    rcases hl : latestUrl d.latest with _ | v
    · rcases hs : d.sessions.bind (fun sl => scanSessions sl) with _ | w
      · rcases List.mem_cons.mp hp with he | hm
        · subst he
          rcases hcase with ⟨v, hv⟩ | ⟨sl, hsl, hq⟩
          · simp at hv hl; rw [hl] at hv; simp at hv
          · obtain ⟨w2, hw2⟩ := scanSessions_isSome hq
            rw [hsl] at hs
            simp at hs
            rw [hw2] at hs
            simp at hs
        · simp
          exact ih hm
      · exact ⟨w, rfl⟩
    · exact ⟨v, rfl⟩

theorem ownEntryUrl_mem {cache : List (String × EntryData)} {eid : String} {d : EntryData}
    {u : String} (hp : (eid, d) ∈ cache) (h : ownEntryUrl (some d) = some u) :
    u ∈ cacheUrls cache := by
  simp only [ownEntryUrl] at h
  rcases hl : d.latest with _ | latest
  · rw [hl] at h
    rcases hs : d.sessions with _ | sl
    · rw [hs] at h; simp at h
    · rw [hs] at h
      rcases sl with _ | ⟨⟨sid, rec⟩, tl⟩
      · simp at h
      · refine mem_cacheUrls hp (Or.inr ⟨(sid, rec), ?_, h⟩)
        simp [hs]
  · rw [hl] at h
    refine mem_cacheUrls hp (Or.inl ?_)
    rw [hl]
    exact h

/-- C3: if session creation fails with a limit-reached condition
during connect and a previously created session (with a usable URL)
exists anywhere in the process-wide cache, the resolver returns a
cached session URL — the connect then uses that URL rather than
falling back to the legacy fixed endpoint.  The cross-entry search
covers the whole cache, so the hypothesis only requires the session
to exist in some entry. -/
theorem sessionLimit_fallback (is_limit_error : Bool) (entry_data : Option EntryData)
    (cache : List (String × EntryData)) (use_ssl : Bool) (host : String) (port : Nat)
    (hlimit : is_limit_error = true)
    (hentry : entry_data = none ∨ ∃ p ∈ cache, entry_data = some p.2)
    (hcache : cacheHasSession cache) :
    ∃ u, resolveAfterSessionError is_limit_error entry_data cache = some u ∧
      u ∈ cacheUrls cache ∧
      connectUrl (resolveAfterSessionError is_limit_error entry_data cache)
        use_ssl host port = u := by
  subst hlimit
  unfold resolveAfterSessionError
  simp only [if_pos rfl]
  rcases h0 : ownEntryUrl entry_data with _ | u
  · obtain ⟨u, hu⟩ := scanEntries_isSome hcache
    refine ⟨u, ?_, scanEntries_mem hu, ?_⟩ <;> simp [hu, connectUrl]
  · rcases hentry with he | ⟨⟨eid, d⟩, hp, he⟩
    · rw [he] at h0; simp [ownEntryUrl] at h0
    · rw [he] at h0
      exact ⟨u, by simp, ownEntryUrl_mem hp h0, by simp [connectUrl]⟩

/-- Witness for C3: a one-entry cache holding one session with URL
`"wss-x"`, no own-entry data, and a limit error. -/
theorem sessionLimit_fallback_witness :
    (true = true ∧
      ((none : Option EntryData) = none ∨
        ∃ p ∈ [("e1", EntryData.mk (some (some (SessionRec.mk (some "s1") (some "wss-x")))) none)],
          (none : Option EntryData) = some p.2) ∧
      cacheHasSession
        [("e1", EntryData.mk (some (some (SessionRec.mk (some "s1") (some "wss-x")))) none)]) ∧
    (∃ u, resolveAfterSessionError true none
        [("e1", EntryData.mk (some (some (SessionRec.mk (some "s1") (some "wss-x")))) none)] = some u ∧
      u ∈ cacheUrls
        [("e1", EntryData.mk (some (some (SessionRec.mk (some "s1") (some "wss-x")))) none)] ∧
      connectUrl (resolveAfterSessionError true none
          [("e1", EntryData.mk (some (some (SessionRec.mk (some "s1") (some "wss-x")))) none)])
        false "h" 80 = u) := by
  have hc : cacheHasSession
      [("e1", EntryData.mk (some (some (SessionRec.mk (some "s1") (some "wss-x")))) none)] :=
    ⟨("e1", EntryData.mk (some (some (SessionRec.mk (some "s1") (some "wss-x")))) none),
      by simp, Or.inl ⟨"wss-x", by decide⟩⟩
  exact ⟨⟨rfl, Or.inl rfl, hc⟩,
    sessionLimit_fallback true none
      [("e1", EntryData.mk (some (some (SessionRec.mk (some "s1") (some "wss-x")))) none)]
      false "h" 80 rfl (Or.inl rfl) hc⟩

/-! ### C9: legacy keyboard message -/

theorem lookup_modCode {u : String} {c : Nat}
    (h : keyTable.lookup u = some c)
    (hc : c = 0x10 ∨ c = 0x11 ∨ c = 0x12 ∨ c = 0x5B) : isModAliasStr u := by
  simp only [keyTable, List.lookup] at h
  unfold isModAliasStr
  repeat' split at h
  all_goals simp_all
  all_goals omega

theorem classify_modCodes (keys : List String) :
    ∀ c ∈ (classifyKeys keys).modifier_key_codes,
      c = VK_CONTROL ∨ c = VK_MENU ∨ c = VK_SHIFT ∨ c = VK_LWIN := by
  induction keys with
  | nil => simp [classifyKeys]
  | cons k rest ih =>
    intro c hc
    simp only [classifyKeys] at hc
    split_ifs at hc with h1 h2 h3 h4
    · simp at hc
      rcases hc with rfl | hm
      · exact Or.inl rfl
      · exact ih c hm
    · simp at hc
      rcases hc with rfl | hm
      · exact Or.inr (Or.inl rfl)
      · exact ih c hm
    · simp at hc
      rcases hc with rfl | hm
      · exact Or.inr (Or.inr (Or.inl rfl))
      · exact ih c hm
    · simp at hc
      rcases hc with rfl | hm
      · exact Or.inr (Or.inr (Or.inr rfl))
      · exact ih c hm
    · split at hc
      · simp at hc
        exact ih c hc
      · exact ih c hc

theorem classify_mainCodes (keys : List String) :
    ∀ c ∈ (classifyKeys keys).main_keys,
      ∃ k ∈ keys, mapKeyNameToCode k = some c ∧ ¬ isModAliasStr (pyUpper k) := by
  induction keys with
  | nil => simp [classifyKeys]
  | cons k rest ih =>
    intro c hc
    simp only [classifyKeys] at hc
    split_ifs at hc with h1 h2 h3 h4
    · simp at hc
      obtain ⟨k2, hk2, hm⟩ := ih c hc
      exact ⟨k2, List.mem_cons_of_mem _ hk2, hm⟩
    · simp at hc
      obtain ⟨k2, hk2, hm⟩ := ih c hc
      exact ⟨k2, List.mem_cons_of_mem _ hk2, hm⟩
    · simp at hc
      obtain ⟨k2, hk2, hm⟩ := ih c hc
      exact ⟨k2, List.mem_cons_of_mem _ hk2, hm⟩
    · simp at hc
      obtain ⟨k2, hk2, hm⟩ := ih c hc
      exact ⟨k2, List.mem_cons_of_mem _ hk2, hm⟩
    · split at hc <;> rename_i hmap
      · simp at hc
        rcases hc with rfl | hm
        · refine ⟨k, List.mem_cons_self _ _, hmap, ?_⟩
          unfold isModAliasStr
          push_neg
          refine ⟨?_, ?_, ?_, ?_, ?_, ?_⟩ <;> intro hh <;> simp [hh] at h1 h2 h3 h4
        · obtain ⟨k2, hk2, hmm⟩ := ih c hm
          exact ⟨k2, List.mem_cons_of_mem _ hk2, hmm⟩
      · obtain ⟨k2, hk2, hmm⟩ := ih c hc
        exact ⟨k2, List.mem_cons_of_mem _ hk2, hmm⟩

theorem map_nonAlias_notModCode {k : String} {c : Nat}
    (h : mapKeyNameToCode k = some c) (halias : ¬ isModAliasStr (pyUpper k)) :
    ¬(c = 0x10 ∨ c = 0x11 ∨ c = 0x12 ∨ c = 0x5B) := by
  intro hc
  simp only [mapKeyNameToCode] at h
  split at h
  · split_ifs at h with hich hd
    · simp at h; omega
    · simp at h; omega
    · exact halias (lookup_modCode h hc)
  · exact halias (lookup_modCode h hc)

theorem alias_map_modCode {k : String} {c : Nat}
    (halias : isModAliasStr (pyUpper k)) (h : mapKeyNameToCode k = some c) :
    c = 0x10 ∨ c = 0x11 ∨ c = 0x12 ∨ c = 0x5B := by
  have hm : mapKeyNameToCode (pyUpper k) = some c := by
    rw [mapKeyNameToCode_pyUpper]; exact h
  rcases halias with ha | ha | ha | ha | ha | ha <;> rw [ha] at hm
  · rw [show mapKeyNameToCode "CTRL" = some 0x11 from by decide] at hm
    simp at hm; omega
  · rw [show mapKeyNameToCode "CONTROL" = some 0x11 from by decide] at hm
    simp at hm; omega
  · rw [show mapKeyNameToCode "ALT" = some 0x12 from by decide] at hm
    simp at hm; omega
  · rw [show mapKeyNameToCode "SHIFT" = some 0x10 from by decide] at hm
    simp at hm; omega
  · rw [show mapKeyNameToCode "WIN" = some 0x5B from by decide] at hm
    simp at hm; omega
  · rw [show mapKeyNameToCode "WINDOWS" = some 0x5B from by decide] at hm
    simp at hm; omega

theorem singleton_ne_of_data {ch : Char} {s : String} (hs : s.data.length ≠ 1) :
    (⟨[ch]⟩ : String) ≠ s := by
  intro h
  apply hs
  rw [← h]
  rfl

theorem pyUpper_singleton_fixed {c : Nat} (h : Nat.isValidChar c) (hn : ¬(97 ≤ c ∧ c ≤ 122)) :
    pyUpper ⟨[Char.ofNatAux c h]⟩ = ⟨[Char.ofNatAux c h]⟩ := by
  unfold pyUpper
  simp only [List.map]
  congr 2
  unfold pyUpperChar
  rw [dif_neg]
  rw [toNat_ofNatAux]
  exact hn

theorem singleton_notAlias (ch : Char) : ¬ isModAliasStr ⟨[ch]⟩ := by
  unfold isModAliasStr
  push_neg
  refine ⟨?_, ?_, ?_, ?_, ?_, ?_⟩ <;> exact singleton_ne_of_data (by decide)

theorem nameKeyCode_notAlias {n : String} (h : ¬ isModAliasStr (pyUpper n)) :
    nameKeyCode n = mapKeyNameToCode n := by
  unfold nameKeyCode isModAliasStr at *
  rw [if_neg (by tauto), if_neg (by tauto), if_neg (by tauto), if_neg (by tauto)]

theorem codeToName_letter (keys : List String) {c : Nat} (h1 : 65 ≤ c) (h2 : c ≤ 90) :
    ∃ n, codeToName keys c = some n ∧ nameKeyCode n = some c ∧ pyUpper n = n := by
  have hv : Nat.isValidChar c := Or.inl (by omega)
  have hup : pyUpper ⟨[Char.ofNatAux c hv]⟩ = ⟨[Char.ofNatAux c hv]⟩ :=
    pyUpper_singleton_fixed hv (by omega)
  have halias : ¬ isModAliasStr (pyUpper ⟨[Char.ofNatAux c hv]⟩) := by
    rw [hup]; exact singleton_notAlias _
  refine ⟨⟨[Char.ofNatAux c hv]⟩, ?_, ?_, hup⟩
  · unfold codeToName
    rw [if_neg (by simp [VK_CONTROL]; omega), if_neg (by simp [VK_MENU]; omega),
      if_neg (by simp [VK_SHIFT]; omega), if_neg (by simp [VK_LWIN]; omega),
      dif_pos (by omega)]
  · rw [nameKeyCode_notAlias halias]
    unfold mapKeyNameToCode
    rw [hup]
    simp only [toNat_ofNatAux]
    rw [if_pos ⟨h1, h2⟩]

theorem codeToName_digit (keys : List String) {c : Nat} (h1 : 48 ≤ c) (h2 : c ≤ 57) :
    ∃ n, codeToName keys c = some n ∧ nameKeyCode n = some c ∧ pyUpper n = n := by
  have hv : Nat.isValidChar c := Or.inl (by omega)
  have hup : pyUpper ⟨[Char.ofNatAux c hv]⟩ = ⟨[Char.ofNatAux c hv]⟩ :=
    pyUpper_singleton_fixed hv (by omega)
  have halias : ¬ isModAliasStr (pyUpper ⟨[Char.ofNatAux c hv]⟩) := by
    rw [hup]; exact singleton_notAlias _
  refine ⟨⟨[Char.ofNatAux c hv]⟩, ?_, ?_, hup⟩
  · unfold codeToName
    rw [if_neg (by simp [VK_CONTROL]; omega), if_neg (by simp [VK_MENU]; omega),
      if_neg (by simp [VK_SHIFT]; omega), if_neg (by simp [VK_LWIN]; omega),
      dif_neg (by omega), dif_pos (by omega)]
  · rw [nameKeyCode_notAlias halias]
    unfold mapKeyNameToCode
    rw [hup]
    simp only [toNat_ofNatAux]
    rw [if_neg (by omega), if_pos ⟨h1, h2⟩]

theorem findKeyName_reencode (c : Nat)
    (hc : ¬(c = 0x10 ∨ c = 0x11 ∨ c = 0x12 ∨ c = 0x5B)) :
    ∀ keys : List String, (∃ k ∈ keys, mapKeyNameToCode k = some c) →
      ∃ n, findKeyNameForCode keys c = some n ∧ nameKeyCode n = some c ∧ pyUpper n = n := by
  intro keys hex
  induction keys with
  | nil => simp at hex
  | cons orig rest ih =>
    simp only [findKeyNameForCode]
    by_cases hm : mapKeyNameToCode orig = some c
    · rw [if_pos hm]
      have halias : ¬ isModAliasStr (pyUpper (pyUpper orig)) := by
        rw [pyUpper_idem]
        intro ha
        exact hc (alias_map_modCode ha hm)
      refine ⟨pyUpper orig, rfl, ?_, pyUpper_idem orig⟩
      rw [nameKeyCode_notAlias halias, mapKeyNameToCode_pyUpper]
      exact hm
    · rw [if_neg hm]
      apply ih
      obtain ⟨k, hk, hmk⟩ := hex
      rcases List.mem_cons.mp hk with rfl | hmem
      · exact absurd hmk hm
      · exact ⟨k, hmem, hmk⟩

theorem codeToName_fallback (keys : List String) {c : Nat}
    (hc : ¬(c = 0x10 ∨ c = 0x11 ∨ c = 0x12 ∨ c = 0x5B))
    (hr1 : ¬(65 ≤ c ∧ c ≤ 90)) (hr2 : ¬(48 ≤ c ∧ c ≤ 57))
    (hex : ∃ k ∈ keys, mapKeyNameToCode k = some c) :
    ∃ n, codeToName keys c = some n ∧ nameKeyCode n = some c ∧ pyUpper n = n := by
  have := findKeyName_reencode c hc keys hex
  obtain ⟨n, hn, hcode, hup⟩ := this
  refine ⟨n, ?_, hcode, hup⟩
  unfold codeToName
  rw [if_neg (by simp [VK_CONTROL]; omega), if_neg (by simp [VK_MENU]; omega),
    if_neg (by simp [VK_SHIFT]; omega), if_neg (by simp [VK_LWIN]; omega),
    dif_neg hr1, dif_neg hr2]
  exact hn

theorem code_reencode (keys : List String) (c : Nat)
    (hc : c ∈ (classifyKeys keys).modifier_key_codes ∨ c ∈ (classifyKeys keys).main_keys) :
    ∃ n, codeToName keys c = some n ∧ nameKeyCode n = some c ∧ pyUpper n = n := by
  rcases hc with hmod | hmain
  · rcases classify_modCodes keys c hmod with rfl | rfl | rfl | rfl
    · exact ⟨"CTRL", by unfold codeToName; rw [if_pos rfl], by decide, by decide⟩
    · exact ⟨"ALT", by unfold codeToName; rw [if_neg (by decide), if_pos rfl], by decide, by decide⟩
    · exact ⟨"SHIFT", by
        unfold codeToName
        rw [if_neg (by decide), if_neg (by decide), if_pos rfl], by decide, by decide⟩
    · exact ⟨"WIN", by
        unfold codeToName
        rw [if_neg (by decide), if_neg (by decide), if_neg (by decide), if_pos rfl],
        by decide, by decide⟩
  · obtain ⟨k, hk, hmap, halias⟩ := classify_mainCodes keys c hmain
    have hnc := map_nonAlias_notModCode hmap halias
    by_cases hr1 : 65 ≤ c ∧ c ≤ 90
    · exact codeToName_letter keys hr1.1 hr1.2
    · by_cases hr2 : 48 ≤ c ∧ c ≤ 57
      · exact codeToName_digit keys hr2.1 hr2.2
      · exact codeToName_fallback keys hnc hr1 hr2 ⟨k, hk, hmap⟩

theorem filterMap_reencode (keys : List String) (codes : List Nat)
    (h : ∀ c ∈ codes, ∃ n, codeToName keys c = some n ∧ nameKeyCode n = some c ∧ pyUpper n = n) :
    (codes.filterMap (codeToName keys)).map nameKeyCode = codes.map some ∧
    ∀ n ∈ codes.filterMap (codeToName keys), pyUpper n = n := by
  induction codes with
  | nil => simp
  | cons c tl ih =>
    obtain ⟨n, hn, hcode, hup⟩ := h c (List.mem_cons_self _ _)
    have htl := ih fun c2 hc2 => h c2 (List.mem_cons_of_mem _ hc2)
    constructor
    · simp only [List.filterMap_cons, hn, List.map_cons, hcode, htl.1]
    · intro n2 hn2
      simp only [List.filterMap_cons, hn] at hn2
      rcases List.mem_cons.mp hn2 with rfl | hmem
      · exact hup
      · exact htl.2 n2 hmem

/-- C9 (amended): in the legacy dialect, a key combo that resolves to
at least one key code emits exactly one `keyboard` message; its
`keys` field lists one name per classified key code — modifiers first
(as the canonical names CTRL/ALT/SHIFT/WIN), then main keys — where
every listed name is fully uppercase and denotes (re-encodes to)
exactly the corresponding classified key code; the names are
canonicalized rather than necessarily the original spellings. -/
theorem legacyCombo_amended (keys : List String)
    (hne : keys ≠ [])
    (hcodes : ¬((classifyKeys keys).modifier_key_codes = [] ∧
      (classifyKeys keys).main_keys = [])) :
    buildKeyComboMsgs true keys = .ok [Msg.keyboard (legacyKeyNames keys)] ∧
    (legacyKeyNames keys).map nameKeyCode =
      ((classifyKeys keys).modifier_key_codes ++ (classifyKeys keys).main_keys).map some ∧
    ∀ n ∈ legacyKeyNames keys, pyUpper n = n := by
  have hfm := filterMap_reencode keys
    ((classifyKeys keys).modifier_key_codes ++ (classifyKeys keys).main_keys)
    (fun c hc => code_reencode keys c (List.mem_append.mp hc))
  refine ⟨?_, ?_, ?_⟩
  · unfold buildKeyComboMsgs
    rw [if_neg hne, if_neg hcodes, if_pos rfl]
  · simp only [legacyKeyNames]
    exact hfm.1
  · simp only [legacyKeyNames]
    exact hfm.2

/-- Counterexample to C9 as stated: the combo `["CONTROL", "A"]`
produces one keyboard message whose keys field is `["CTRL", "A"]`,
not the original key names (`"CTRL"` is not the original spelling
`"CONTROL"`). -/
theorem legacyCombo_counterexample :
    buildKeyComboMsgs true ["CONTROL", "A"] = .ok [Msg.keyboard ["CTRL", "A"]] ∧
    ("CTRL" : String) ≠ "CONTROL" := by
  decide

/-- Witness for the amended C9 on the combo `["CONTROL", "A"]`. -/
theorem legacyCombo_amended_witness :
    ((["CONTROL", "A"] : List String) ≠ [] ∧
      ¬((classifyKeys ["CONTROL", "A"]).modifier_key_codes = [] ∧
        (classifyKeys ["CONTROL", "A"]).main_keys = [])) ∧
    buildKeyComboMsgs true ["CONTROL", "A"] =
      .ok [Msg.keyboard (legacyKeyNames ["CONTROL", "A"])] ∧
    (legacyKeyNames ["CONTROL", "A"]).map nameKeyCode =
      ((classifyKeys ["CONTROL", "A"]).modifier_key_codes ++
        (classifyKeys ["CONTROL", "A"]).main_keys).map some ∧
    ∀ n ∈ legacyKeyNames ["CONTROL", "A"], pyUpper n = n :=
  ⟨⟨by decide, by decide⟩,
    legacyCombo_amended ["CONTROL", "A"] (by decide) (by decide)⟩

/-! ### C10: key names are case-insensitive -/

theorem classifyKeys_upper_ctx (pre post : List String) (k : String) :
    classifyKeys (pre ++ pyUpper k :: post) = classifyKeys (pre ++ k :: post) := by
  induction pre with
  | nil =>
    simp only [List.nil_append]
    simp only [classifyKeys, pyUpper_idem, mapKeyNameToCode_pyUpper]
  | cons a pre ih =>
    simp only [List.cons_append, classifyKeys, List.append_eq, ih]

theorem findKeyNameForCode_upper_ctx (pre post : List String) (k : String) (code : Nat) :
    findKeyNameForCode (pre ++ pyUpper k :: post) code =
      findKeyNameForCode (pre ++ k :: post) code := by
  induction pre with
  | nil =>
    simp only [List.nil_append, findKeyNameForCode, mapKeyNameToCode_pyUpper, pyUpper_idem]
  | cons a pre ih =>
    simp only [List.cons_append, findKeyNameForCode, List.append_eq, ih]

theorem codeToName_upper_ctx (pre post : List String) (k : String) :
    codeToName (pre ++ pyUpper k :: post) = codeToName (pre ++ k :: post) := by
  funext code
  simp only [codeToName, findKeyNameForCode_upper_ctx]

theorem legacyKeyNames_upper_ctx (pre post : List String) (k : String) :
    legacyKeyNames (pre ++ pyUpper k :: post) = legacyKeyNames (pre ++ k :: post) := by
  simp only [legacyKeyNames, classifyKeys_upper_ctx, codeToName_upper_ctx]

theorem sessionKeyComboMsgs_upper_ctx (pre post : List String) (k : String) :
    sessionKeyComboMsgs (pre ++ pyUpper k :: post) =
      sessionKeyComboMsgs (pre ++ k :: post) := by
  simp only [sessionKeyComboMsgs, classifyKeys_upper_ctx]

/-- C10: key-name handling is case-insensitive — replacing any key
name of a combo by its uppercase form produces exactly the same wire
messages in either dialect, and the name-to-code mapping gives the
same code for a name and its uppercase form, because both modifier
classification and the mapping uppercase the name before lookup. -/
theorem keyName_case_insensitive (is_deprecated_endpoint : Bool)
    (pre post : List String) (k : String) :
    buildKeyComboMsgs is_deprecated_endpoint (pre ++ pyUpper k :: post) =
      buildKeyComboMsgs is_deprecated_endpoint (pre ++ k :: post) ∧
    mapKeyNameToCode (pyUpper k) = mapKeyNameToCode k ∧
    classifyKeys (pre ++ pyUpper k :: post) = classifyKeys (pre ++ k :: post) := by
  refine ⟨?_, mapKeyNameToCode_pyUpper k, classifyKeys_upper_ctx pre post k⟩
  unfold buildKeyComboMsgs
  rw [if_neg (show pre ++ pyUpper k :: post ≠ [] by simp),
    if_neg (show pre ++ k :: post ≠ [] by simp),
    classifyKeys_upper_ctx, legacyKeyNames_upper_ctx, sessionKeyComboMsgs_upper_ctx]
